import Mathlib

/-!
Verification of the data-normalization and metrics pipeline of `script.js`
(timestamp resolution, per-machine series construction, windowed metrics,
cross-machine aggregation).

The JavaScript functions are embedded shallowly:

* machine timestamps (epoch milliseconds) are `Int`;
* sensor values and the diesel price / consumption constants are `Rat`
  (the idealization of JavaScript's decimal arithmetic);
* `new Date(iso).getTime()` together with its `isNaN` check is an external
  runtime capability, modelled as an oracle `jsDate : String → Option Int`
  (`none` models an invalid calendar date/time);
* the `localStorage`-driven globals `dieselPrice` / `dieselConsumption`
  are explicit parameters.

String primitives (`split`, `trim`, `padStart`, `parseInt`, `parseFloat`,
the column-name tests) are re-implemented over `List Char` following the
JavaScript semantics used by the source.
-/

/-- Whitespace test used by the `trim`, `parseInt` and `parseFloat` models. -/
def isWs (c : Char) : Bool :=
  c = ' ' || c = '\t' || c = '\n' || c = '\r'

/-- Accumulator-based splitter: `jsSplitAux p acc cs` splits `cs` at every
character satisfying `p`, with `acc` holding the (reversed) current field.
Adjacent separators yield empty fields, as in JavaScript `String.split`. -/
def jsSplitAux (p : Char → Bool) : List Char → List Char → List (List Char)
  | acc, [] => [acc.reverse]
  | acc, c :: cs =>
    if p c then acc.reverse :: jsSplitAux p [] cs else jsSplitAux p (c :: acc) cs

/-- Model of `dateStr.split(/[\/\-]/)` from `parseTimestamp` (script.js line 31). -/
def splitDate (s : String) : List String :=
  (jsSplitAux (fun c => c = '/' || c = '-') [] s.toList).map String.mk

/-- Numeric value of a list of decimal digit characters. -/
def digitsVal (l : List Char) : Nat :=
  l.foldl (fun n c => n * 10 + (c.toNat - 48)) 0

/-- Model of JavaScript `parseInt(s, 10)`: skip leading whitespace, allow an
optional plus sign, then read a non-empty prefix of decimal digits; `none`
models `NaN`.  (A minus sign cannot occur here: the date parts this is applied
to come from splitting on `/` and `-`, so they never contain `-`.) -/
def js_parseInt (s : String) : Option Nat :=
  let l := s.toList.dropWhile isWs
  let l := match l with
    | '+' :: rest => rest
    | _ => l
  let ds := l.takeWhile Char.isDigit
  if ds.isEmpty then none else some (digitsVal ds)

/-- Model of JavaScript `String.prototype.trim`. -/
def jsTrim (s : String) : String :=
  String.mk (((s.toList.dropWhile isWs).reverse.dropWhile isWs).reverse)

/-- Model of JavaScript `String(x).padStart(n, c)`: pad on the left up to
length `n`; strings already at least that long are returned unchanged. -/
def jsPadStart (s : String) (n : Nat) (c : Char) : String :=
  if n ≤ s.length then s else String.mk (List.replicate (n - s.length) c ++ s.toList)

/-- Model of `String(cell).replace(',', '.')`: JavaScript `replace` with a
string pattern replaces only the first occurrence. -/
def replaceFirstComma (s : String) : String :=
  String.mk (go s.toList)
where
  go : List Char → List Char
    | [] => []
    | c :: cs => if c = ',' then '.' :: cs else c :: go cs

/-- Signed exponent scaling used by the `parseFloat` model. -/
def pow10 (sign : Bool) (e : Nat) : Rat :=
  if sign then (10 : Rat) ^ e else ((10 : Rat) ^ e)⁻¹

/-- Model of JavaScript `parseFloat`: skip leading whitespace, optional sign,
integer digits, optional fractional digits, optional exponent; `none` models
`NaN`.  (Literal `Infinity` inputs are outside this numeric model; they do not
occur in the sensor data this is applied to.) -/
def jsParseFloat (s : String) : Option Rat :=
  let l := s.toList.dropWhile isWs
  let (neg, l) := match l with
    | '-' :: rest => (true, rest)
    | '+' :: rest => (false, rest)
    | _ => (false, l)
  let intDs := l.takeWhile Char.isDigit
  let l₁ := l.dropWhile Char.isDigit
  let (fracDs, l₂) := match l₁ with
    | '.' :: rest => (rest.takeWhile Char.isDigit, rest.dropWhile Char.isDigit)
    | _ => ([], l₁)
  if intDs.isEmpty ∧ fracDs.isEmpty then none
  else
    let mantissa : Rat :=
      (digitsVal intDs : Rat) + (digitsVal fracDs : Rat) / (10 : Rat) ^ fracDs.length
    let expScale : Rat := match l₂ with
      | 'e' :: rest => expVal rest
      | 'E' :: rest => expVal rest
      | _ => 1
    let v := mantissa * expScale
    some (if neg then -v else v)
where
  /-- Exponent part: optional sign then digits; an empty digit run means the
  exponent marker is ignored (scale 1), as `parseFloat` stops there. -/
  expVal (l : List Char) : Rat :=
    let (eneg, l') := match l with
      | '-' :: rest => (true, rest)
      | '+' :: rest => (false, rest)
      | _ => (false, l)
    let eds := l'.takeWhile Char.isDigit
    if eds.isEmpty then 1 else pow10 (!eneg) (digitsVal eds)

/-- Day/month/year resolution of `parseTimestamp` (script.js lines 31-56):
split the date text, parse the first three parts, disambiguate day vs month,
and normalize a two-digit year.  Returns `(month, day, year)`. -/
def resolveFields (dateStr : String) : Option (Nat × Nat × Nat) :=
  let parts := splitDate dateStr
  if parts.length < 3 then none
  else
    match js_parseInt (parts.getD 0 ""), js_parseInt (parts.getD 1 ""),
        js_parseInt (parts.getD 2 "") with
    | some p1, some p2, some p3 =>
      let md : Nat × Nat :=
        if 12 < p2 ∧ p1 ≤ 12 then (p1, p2)
        else if 12 < p1 ∧ p2 ≤ 12 then (p2, p1)
        else (p1, p2)
      some (md.1, md.2, if p3 < 100 then p3 + 2000 else p3)
    | _, _, _ => none

/-- The ISO-like string built at script.js line 57:
`YYYY-MM-DDT<trimmed time>` with zero-padded fields. -/
def isoString (year month day : Nat) (timeStr : String) : String :=
  jsPadStart (toString year) 4 '0' ++ "-" ++ jsPadStart (toString month) 2 '0' ++ "-" ++
    jsPadStart (toString day) 2 '0' ++ "T" ++ jsTrim timeStr

/-- Model of `parseTimestamp(dateStr, timeStr)` (script.js lines 29-61).
`jsDate` is the runtime's `new Date(iso).getTime()` including the final
`isNaN` check: it yields `none` exactly when the string does not denote a
valid calendar date/time. -/
def parseTimestamp (jsDate : String → Option Int) (dateStr timeStr : String) :
    Option Int :=
  if dateStr = "" ∨ timeStr = "" then none
  else
    match resolveFields dateStr with
    | none => none
    | some (month, day, year) => jsDate (isoString year month day timeStr)

/-- One sensor reading: timestamp in epoch milliseconds and temperature value. -/
structure Point where
  t : Int
  value : Rat
deriving DecidableEq

/-- Result record of `computeMetrics` (script.js lines 147-193). -/
structure Metrics where
  availability : String
  economiaLitros : Rat
  economiaRS : Rat
  economiaMes : Rat
  lastTemperature : Option Rat
deriving DecidableEq

/-- The zero result returned for an empty series or an empty window
(script.js lines 148-156 and 159-167). -/
def emptyMetrics : Metrics :=
  ⟨"00:00 h", 0, 0, 0, none⟩

/-- The window filter of script.js line 158:
`dataArr.filter(p => p.t >= startTime && p.t <= endTime)` (inclusive bounds). -/
def windowFilter (dataArr : List Point) (startTime endTime : Int) : List Point :=
  dataArr.filter (fun p => startTime ≤ p.t ∧ p.t ≤ endTime)

/-- The accumulator loop of script.js lines 170-181: walk consecutive pairs of
the filtered list, adding `curr.t - prev.t` to the availability sum when both
values exceed 50 and to the savings sum when both exceed 40. -/
def metricsLoop : Point → List Point → Int × Int
  | _, [] => (0, 0)
  | prev, curr :: rest =>
    let r := metricsLoop curr rest
    ((if prev.value > 50 ∧ curr.value > 50 then curr.t - prev.t else 0) + r.1,
      (if prev.value > 40 ∧ curr.value > 40 then curr.t - prev.t else 0) + r.2)

/-- Availability formatting of script.js lines 182-185: fractional hours,
floored hour and minute fields, zero-padded, with the `" h"` suffix. -/
def formatAvailability (availabilityMs : Int) : String :=
  let availHrs : Rat := (availabilityMs : Rat) / 3600000
  let availHours : Int := availHrs.floor
  let availMinutes : Int := ((availHrs - availHours) * 60).floor
  jsPadStart (toString availHours) 2 '0' ++ ":" ++
    jsPadStart (toString availMinutes) 2 '0' ++ " h"

/-- Model of `computeMetrics(dataArr, startTime, endTime)` (script.js lines
147-193), with the global `dieselPrice` / `dieselConsumption` constants made
explicit parameters. -/
def computeMetrics (dieselPrice dieselConsumption : Rat) (dataArr : List Point)
    (startTime endTime : Int) : Metrics :=
  if dataArr = [] then emptyMetrics
  else
    match windowFilter dataArr startTime endTime with
    | [] => emptyMetrics
    | p :: rest =>
      let ms := metricsLoop p rest
      let economiaLitros := ((ms.2 : Rat) / 3600000) * dieselConsumption
      let economiaRS := economiaLitros * dieselPrice
      ⟨formatAvailability ms.1, economiaLitros, economiaRS, economiaRS * 30,
        some (((p :: rest).getLast (List.cons_ne_nil p rest)).value)⟩

/-- A parsed CSV row: column name to cell text, in column (insertion) order. -/
abbrev Row := List (String × String)

/-- Model of the alias chain `row[a1] || row[a2] || ... || ''` (script.js
lines 109-110): the first alias present with a non-empty value wins; both a
missing key (`undefined`) and an empty string are falsy and fall through. -/
def aliasLookup (row : Row) : List String → String
  | [] => ""
  | a :: rest =>
    match List.lookup a row with
    | some v => if v = "" then aliasLookup row rest else v
    | none => aliasLookup row rest

/-- The date column aliases of script.js line 109. -/
def dateAliases : List String := ["$Date", "Date", "Data", "data"]

/-- The time column aliases of script.js line 110. -/
def timeAliases : List String := ["$Time", "Time", "Hora", "hora"]

/-- Naïve substring search on character lists (`startsWithSeq` helper). -/
def startsWithSeq : List Char → List Char → Bool
  | [], _ => true
  | _ :: _, [] => false
  | a :: as, b :: bs => a = b && startsWithSeq as bs

/-- Substring containment on character lists. -/
def containsSeq (needle : List Char) : List Char → Bool
  | [] => startsWithSeq needle []
  | c :: rest => startsWithSeq needle (c :: rest) || containsSeq needle rest

/-- Model of the test `/\$?(Date|Time|Data|Hora)/i.test(col)` (script.js line
117): since the `\$?` prefix is optional and the regex is unanchored, the test
holds exactly when the column name contains one of the four words
case-insensitively as a substring anywhere. -/
def dateTimeColTest (col : String) : Bool :=
  let l := col.toList.map Char.toLower
  containsSeq (("date").toList) l || containsSeq (("time").toList) l ||
    containsSeq (("data").toList) l || containsSeq (("hora").toList) l

/-- Model of `col.match(/SCA(\d{2})/i)` (script.js line 124): find the first
position where `SCA` (case-insensitive) is immediately followed by two decimal
digits, and return those two digits as the machine number. -/
def scaMatchAux : List Char → Option Nat
  | c1 :: c2 :: c3 :: c4 :: c5 :: rest =>
    if c1.toLower = 's' ∧ c2.toLower = 'c' ∧ c3.toLower = 'a' ∧
        c4.isDigit ∧ c5.isDigit then
      some ((c4.toNat - 48) * 10 + (c5.toNat - 48))
    else scaMatchAux (c2 :: c3 :: c4 :: c5 :: rest)
  | _ => none

/-- Machine-identifier extraction from a column name. -/
def scaMatch (col : String) : Option Nat :=
  scaMatchAux col.toList

/-- The per-column body of the `Object.keys(row).forEach` loop (script.js
lines 115-129): given the row's timestamp, a column name and its cell text,
produce the machine id and sample point it contributes, or `none` if the
column is skipped. -/
def colContribution (ts : Int) (col cell : String) : Option (Nat × Point) :=
  if dateTimeColTest col then none
  else if cell = "" then none
  else
    match jsParseFloat (replaceFirstComma cell) with
    | none => none
    | some value =>
      match scaMatch col with
      | none => none
      | some motorId => some (motorId, ⟨ts, value⟩)

/-- All contributions of one row (script.js lines 107-130): resolve the row's
timestamp from the date/time alias columns; if that fails the whole row is
skipped, otherwise every column is processed in order. -/
def rowContributions (jsDate : String → Option Int) (row : Row) :
    List (Nat × Point) :=
  match parseTimestamp jsDate (aliasLookup row dateAliases)
      (aliasLookup row timeAliases) with
  | none => []
  | some ts => row.filterMap (fun pr => colContribution ts pr.1 pr.2)

/-- The series of machine `id` in insertion order: rows of all tables in the
order supplied, each row's columns in column order (the repeated
`motorData[motorId].push` of script.js line 128, before sorting). -/
def rawSeries (jsDate : String → Option Int) (tables : List (List Row))
    (id : Nat) : List Point :=
  (((tables.flatten.map (rowContributions jsDate)).flatten.filter
    (fun q => q.1 = id)).map (·.2))

/-- The sort comparator of script.js line 134 (`(a, b) => a.t - b.t`) as a
boolean order on points. -/
def ptLE (a b : Point) : Bool :=
  a.t ≤ b.t

/-- Model of `buildDataStructure`'s `motorData` output (script.js lines
102-137): the per-machine insertion-order series, sorted by timestamp with a
stable sort (JavaScript `Array.prototype.sort` is stable). -/
def motorDataOf (jsDate : String → Option Int) (tables : List (List Row))
    (id : Nat) : List Point :=
  (rawSeries jsDate tables id).mergeSort ptLE

/-- Timestamps of all rows whose date/time resolved (the `minTime`/`maxTime`
updates of script.js lines 113-114 range over exactly these). -/
def acceptedTimestamps (jsDate : String → Option Int)
    (tables : List (List Row)) : List Int :=
  tables.flatten.filterMap (fun row =>
    parseTimestamp jsDate (aliasLookup row dateAliases)
      (aliasLookup row timeAliases))

/-- Model of `buildDataStructure`'s `minTime`/`maxTime` (script.js lines
104-114): the `Infinity` / `-Infinity` sentinels of the no-data case are
modelled as `none`. -/
def timeBounds (jsDate : String → Option Int) (tables : List (List Row)) :
    Option (Int × Int) :=
  match (acceptedTimestamps jsDate tables).min?,
      (acceptedTimestamps jsDate tables).max? with
  | some mn, some mx => some (mn, mx)
  | _, _ => none

/-- The `heatingMotors` list of `updateSummaryPanel` (script.js lines
361-369): machine ids 1..23 that are flagged for electric heating and have at
least one sample. -/
def heatingMotors (heatingData : Nat → Bool) (motorData : Nat → List Point) :
    List Nat :=
  (List.range' 1 23).filter (fun id => heatingData id && !(motorData id).isEmpty)

/-- The `totalLitrosHeating` accumulation of script.js lines 371-377. -/
def totalLitrosHeating (dieselPrice dieselConsumption : Rat)
    (heatingData : Nat → Bool) (motorData : Nat → List Point)
    (startTime endTime : Int) : Rat :=
  ((heatingMotors heatingData motorData).map (fun id =>
    (computeMetrics dieselPrice dieselConsumption (motorData id)
      startTime endTime).economiaLitros)).sum

/-- The `totalRSHeating` accumulation of script.js lines 372-377. -/
def totalRSHeating (dieselPrice dieselConsumption : Rat)
    (heatingData : Nat → Bool) (motorData : Nat → List Point)
    (startTime endTime : Int) : Rat :=
  ((heatingMotors heatingData motorData).map (fun id =>
    (computeMetrics dieselPrice dieselConsumption (motorData id)
      startTime endTime).economiaRS)).sum

/-- The `totalMonthlyProjection` loop of script.js lines 379-385: every
machine id 1..23 with at least one sample contributes its monthly projection,
with no heating-flag restriction. -/
def totalMonthlyProjection (dieselPrice dieselConsumption : Rat)
    (motorData : Nat → List Point) (startTime endTime : Int) : Rat :=
  (((List.range' 1 23).filter (fun id => !(motorData id).isEmpty)).map (fun id =>
    (computeMetrics dieselPrice dieselConsumption (motorData id)
      startTime endTime).economiaMes)).sum

/-! Claim-side specification functions.  These restate what the specification
says, independently of the control flow of the embedded source functions; the
claim theorems connect the two. -/

/-- Month chosen by the disambiguation rules of the specification. -/
def claimMonth (p1 p2 : Nat) : Nat :=
  if 12 < p2 ∧ p1 ≤ 12 then p1 else if 12 < p1 ∧ p2 ≤ 12 then p2 else p1

/-- Day chosen by the disambiguation rules of the specification. -/
def claimDay (p1 p2 : Nat) : Nat :=
  if 12 < p2 ∧ p1 ≤ 12 then p2 else if 12 < p1 ∧ p2 ≤ 12 then p1 else p2

/-- Year normalization of the specification: a two-digit year gains 2000. -/
def claimYear (p3 : Nat) : Nat :=
  if p3 < 100 then p3 + 2000 else p3

/-- Specification-side accumulator: sum over consecutive pairs of the list of
the inter-sample interval, counted when both endpoint values exceed the
threshold. -/
def pairSum (thresh : Rat) (l : List Point) : Int :=
  ((l.zip l.tail).map (fun pq =>
    if pq.1.value > thresh ∧ pq.2.value > thresh then pq.2.t - pq.1.t else 0)).sum

/-! Helper lemmas. -/

theorem splitDate_empty : splitDate ("") = [("")] := rfl

/-- Fused accumulation loop equals the specification's pairwise sums. -/
theorem metricsLoop_eq_pairSum (p : Point) (rest : List Point) :
    metricsLoop p rest = (pairSum 50 (p :: rest), pairSum 40 (p :: rest)) := by
  induction rest generalizing p with
  | nil => simp [metricsLoop, pairSum]
  | cons q rest ih =>
    simp only [metricsLoop, ih q, pairSum, List.tail_cons, List.zip_cons_cons,
      List.map_cons, List.sum_cons]

theorem pairSum_cons_cons (thresh : Rat) (p q : Point) (l : List Point) :
    pairSum thresh (p :: q :: l) =
      (if p.value > thresh ∧ q.value > thresh then q.t - p.t else 0) +
        pairSum thresh (q :: l) := by
  simp [pairSum]

/-- A pairwise t-sorted list has a nonnegative pair sum. -/
theorem pairSum_nonneg (thresh : Rat) (l : List Point)
    (h : l.Pairwise (fun x y : Point => x.t ≤ y.t)) : 0 ≤ pairSum thresh l := by
  induction l with
  | nil => simp [pairSum]
  | cons p rest ih =>
    cases rest with
    | nil => simp [pairSum]
    | cons q r =>
      rw [pairSum_cons_cons]
      have hpq : p.t ≤ q.t := List.rel_of_pairwise_cons h (by simp)
      have htl : 0 ≤ pairSum thresh (q :: r) := ih (List.Pairwise.of_cons h)
      have hterm : 0 ≤ (if p.value > thresh ∧ q.value > thresh
          then q.t - p.t else 0) := by
        split
        · omega
        · exact le_refl 0
      omega

/-- Field resolution under the hypotheses that the date splits into at least
three parts and the first three parse as numbers. -/
theorem resolveFields_eq (dateStr : String) (p1 p2 p3 : Nat)
    (hlen : 3 ≤ (splitDate dateStr).length)
    (h1 : js_parseInt ((splitDate dateStr).getD 0 ("")) = some p1)
    (h2 : js_parseInt ((splitDate dateStr).getD 1 ("")) = some p2)
    (h3 : js_parseInt ((splitDate dateStr).getD 2 ("")) = some p3) :
    resolveFields dateStr =
      some (claimMonth p1 p2, claimDay p1 p2, claimYear p3) := by
  rw [resolveFields]
  rw [if_neg (by omega)]
  rw [h1, h2, h3]
  unfold claimMonth claimDay claimYear
  by_cases hA : 12 < p2 ∧ p1 ≤ 12
  · simp [hA]
  · by_cases hB : 12 < p1 ∧ p2 ≤ 12
    · simp [hA, hB]
    · simp [hA, hB]

/-- Field resolution fails exactly when the split is short or a part is
non-numeric. -/
theorem resolveFields_eq_none_iff (dateStr : String) :
    resolveFields dateStr = none ↔
      (splitDate dateStr).length < 3 ∨
      js_parseInt ((splitDate dateStr).getD 0 ("")) = none ∨
      js_parseInt ((splitDate dateStr).getD 1 ("")) = none ∨
      js_parseInt ((splitDate dateStr).getD 2 ("")) = none := by
  rw [resolveFields]
  by_cases hlen : (splitDate dateStr).length < 3
  · simp [hlen]
  · rw [if_neg hlen]
    rcases e0 : js_parseInt ((splitDate dateStr).getD 0 ("")) with _ | p1
    · simp [hlen]
    · rcases e1 : js_parseInt ((splitDate dateStr).getD 1 ("")) with _ | p2
      · simp [hlen]
      · rcases e2 : js_parseInt ((splitDate dateStr).getD 2 ("")) with _ | p3
        · simp [hlen]
        · simp [hlen]

/-- A date string that splits into at least three parts is not empty. -/
theorem dateStr_ne_empty_of_parts {dateStr : String}
    (hlen : 3 ≤ (splitDate dateStr).length) : dateStr ≠ ("") := by
  intro h
  subst h
  rw [splitDate_empty] at hlen
  simp at hlen

/-- A concrete runtime oracle used by the witnesses: every string is accepted
and mapped to instant 0. -/
def jsOracle : String → Option Int := fun _ => some 0

/-- C1: for a date string splitting into three numeric parts and a non-empty
time string, `parseTimestamp` hands the runtime the ISO string built from the
month/day/year chosen by the disambiguation rules (second part > 12 forces
month/day; first part > 12 with second ≤ 12 forces day/month; both ≤ 12
defaults to month/day), with a year below 100 increased by 2000. -/
theorem c1_resolution (jsDate : String → Option Int) (dateStr timeStr : String)
    (p1 p2 p3 : Nat)
    (hlen : 3 ≤ (splitDate dateStr).length)
    (h1 : js_parseInt ((splitDate dateStr).getD 0 ("")) = some p1)
    (h2 : js_parseInt ((splitDate dateStr).getD 1 ("")) = some p2)
    (h3 : js_parseInt ((splitDate dateStr).getD 2 ("")) = some p3)
    (ht : timeStr ≠ ("")) :
    parseTimestamp jsDate dateStr timeStr =
      jsDate (isoString (claimYear p3) (claimMonth p1 p2) (claimDay p1 p2) timeStr) ∧
    (12 < p2 ∧ p1 ≤ 12 → claimMonth p1 p2 = p1 ∧ claimDay p1 p2 = p2) ∧
    (12 < p1 ∧ p2 ≤ 12 → claimDay p1 p2 = p1 ∧ claimMonth p1 p2 = p2) ∧
    (p1 ≤ 12 ∧ p2 ≤ 12 → claimMonth p1 p2 = p1 ∧ claimDay p1 p2 = p2) ∧
    (p3 < 100 → claimYear p3 = p3 + 2000) := by
  have hd := dateStr_ne_empty_of_parts hlen
  refine ⟨?_, ?_, ?_, ?_, ?_⟩
  · rw [parseTimestamp, if_neg (by tauto),
      resolveFields_eq dateStr p1 p2 p3 hlen h1 h2 h3]
  · intro hc
    constructor
    · simp [claimMonth, hc]
    · simp [claimDay, hc]
  · intro hc
    have hA : ¬(12 < p2 ∧ p1 ≤ 12) := by omega
    constructor
    · simp [claimDay, hA, hc]
    · simp [claimMonth, hA, hc]
  · intro hc
    have hA : ¬(12 < p2 ∧ p1 ≤ 12) := by omega
    have hB : ¬(12 < p1 ∧ p2 ≤ 12) := by omega
    constructor
    · simp [claimMonth, hA, hB]
    · simp [claimDay, hA, hB]
  · intro hc
    simp [claimYear, hc]

/-- C1 witness: the mm/dd/yy example `03/15/24` with time `10:00` resolves to
month 3, day 15, year 2024, and the ISO string handed over is
`2024-03-15T10:00`. -/
theorem c1_witness :
    parseTimestamp jsOracle ("03/15/24") ("10:00") =
      jsOracle (isoString (claimYear 24) (claimMonth 3 15) (claimDay 3 15) ("10:00")) ∧
    isoString (claimYear 24) (claimMonth 3 15) (claimDay 3 15) ("10:00") =
      ("2024-03-15T10:00") :=
  ⟨(c1_resolution jsOracle ("03/15/24") ("10:00") 3 15 24 (by decide) (by decide)
      (by decide) (by decide) (by decide)).1,
    by decide⟩

/-- C7: `parseTimestamp` fails exactly when an input is empty, or the date
splits into fewer than three parts, or one of the first three parts is
non-numeric, or the runtime rejects the combined date/time string (invalid
calendar date/time, modelled by the `jsDate` oracle returning `none`); in
particular the two concrete calls of the specification fail. -/
theorem c7_failure_modes (jsDate : String → Option Int) (dateStr timeStr : String) :
    (parseTimestamp jsDate dateStr timeStr = none ↔
      dateStr = ("") ∨ timeStr = ("") ∨ (splitDate dateStr).length < 3 ∨
      js_parseInt ((splitDate dateStr).getD 0 ("")) = none ∨
      js_parseInt ((splitDate dateStr).getD 1 ("")) = none ∨
      js_parseInt ((splitDate dateStr).getD 2 ("")) = none ∨
      (∃ m d y, resolveFields dateStr = some (m, d, y) ∧
        jsDate (isoString y m d timeStr) = none)) ∧
    parseTimestamp jsDate ("") ("10:00") = none ∧
    parseTimestamp jsDate ("03/15/24") ("") = none := by
  refine ⟨⟨?_, ?_⟩, by simp [parseTimestamp], by simp [parseTimestamp]⟩
  · intro h
    by_cases hd : dateStr = ("")
    · exact Or.inl hd
    by_cases htt : timeStr = ("")
    · exact Or.inr (Or.inl htt)
    rw [parseTimestamp, if_neg (by tauto)] at h
    rcases hrf : resolveFields dateStr with _ | ⟨m, d, y⟩
    · have := (resolveFields_eq_none_iff dateStr).mp hrf
      tauto
    · rw [hrf] at h
      exact Or.inr (Or.inr (Or.inr (Or.inr (Or.inr (Or.inr ⟨m, d, y, rfl, h⟩)))))
  · intro h
    by_cases hd : dateStr = ("")
    · simp [parseTimestamp, hd]
    by_cases htt : timeStr = ("")
    · simp [parseTimestamp, htt]
    rw [parseTimestamp, if_neg (by tauto)]
    rcases h with h | h | h | h | h | h | ⟨m, d, y, hrf, hjs⟩
    · exact absurd h hd
    · exact absurd h htt
    · rw [(resolveFields_eq_none_iff dateStr).mpr (Or.inl h)]
    · rw [(resolveFields_eq_none_iff dateStr).mpr (Or.inr (Or.inl h))]
    · rw [(resolveFields_eq_none_iff dateStr).mpr (Or.inr (Or.inr (Or.inl h)))]
    · rw [(resolveFields_eq_none_iff dateStr).mpr (Or.inr (Or.inr (Or.inr h)))]
    · rw [hrf]
      exact hjs

/-- C7 witness: the two concrete failing calls of the specification. -/
theorem c7_witness :
    parseTimestamp jsOracle ("") ("10:00") = none ∧
    parseTimestamp jsOracle ("03/15/24") ("") = none :=
  ⟨(c7_failure_modes jsOracle ("") ("10:00")).2.1,
    (c7_failure_modes jsOracle ("03/15/24") ("")).2.2⟩

/-- Decomposition of a list of length at least three. -/
theorem exists_three_head {l : List String} (hlen : 3 ≤ l.length) :
    ∃ a b c r, l = a :: b :: c :: r := by
  rcases l with _ | ⟨a, tl⟩
  · simp at hlen
  · rcases tl with _ | ⟨b, tl2⟩
    · simp at hlen
    · rcases tl2 with _ | ⟨c, r⟩
      · simp at hlen
      · exact ⟨a, b, c, r, rfl⟩

/-- Field resolution only depends on the first three parts of the split. -/
theorem resolveFields_congr {d1 d2 : String}
    (hl1 : 3 ≤ (splitDate d1).length) (hl2 : 3 ≤ (splitDate d2).length)
    (htake : (splitDate d1).take 3 = (splitDate d2).take 3) :
    resolveFields d1 = resolveFields d2 := by
  obtain ⟨a, b, c, r, e1⟩ := exists_three_head hl1
  obtain ⟨a', b', c', r', e2⟩ := exists_three_head hl2
  rw [e1, e2] at htake
  simp only [List.take_succ_cons, List.take_zero, List.cons.injEq, and_true] at htake
  obtain ⟨ha, hb, hc⟩ := htake
  rw [resolveFields, resolveFields, e1, e2, ha, hb, hc]
  simp only [List.getD]
  rw [if_neg (by simp), if_neg (by simp)]
  simp [List.get?]

/-- C10: a date string splitting into more than three parts is not rejected;
only the first three parts matter, so two date strings agreeing on their first
three parts resolve identically for every time string. -/
theorem c10_extra_parts (jsDate : String → Option Int) (d1 d2 t : String)
    (hl1 : 3 ≤ (splitDate d1).length) (hl2 : 3 ≤ (splitDate d2).length)
    (htake : (splitDate d1).take 3 = (splitDate d2).take 3) :
    parseTimestamp jsDate d1 t = parseTimestamp jsDate d2 t := by
  have hd1 := dateStr_ne_empty_of_parts hl1
  have hd2 := dateStr_ne_empty_of_parts hl2
  by_cases ht : t = ("")
  · simp [parseTimestamp, ht]
  · rw [parseTimestamp, parseTimestamp, if_neg (by tauto), if_neg (by tauto),
      resolveFields_congr hl1 hl2 htake]

/-- C10 witness: `15/03/24/99` and `15/03/24` resolve identically, and the
four-part string is accepted (the oracle maps every string to instant 0). -/
theorem c10_witness :
    parseTimestamp jsOracle ("15/03/24/99") ("10:00") =
      parseTimestamp jsOracle ("15/03/24") ("10:00") ∧
    parseTimestamp jsOracle ("15/03/24/99") ("10:00") = some 0 :=
  ⟨c10_extra_parts jsOracle ("15/03/24/99") ("15/03/24") ("10:00")
      (by decide) (by decide) (by decide),
    by decide⟩

/-- Unfolding lemma: an empty filtered window yields the zero result. -/
theorem computeMetrics_empty_window (price cons : Rat) (dataArr : List Point)
    (a b : Int) (hw : windowFilter dataArr a b = []) :
    computeMetrics price cons dataArr a b = emptyMetrics := by
  by_cases hne : dataArr = []
  · simp [computeMetrics, hne]
  · rw [computeMetrics, if_neg hne]
    simp only [hw]

/-- Unfolding lemma for a non-empty filtered window. -/
theorem computeMetrics_cons (price cons : Rat) (dataArr : List Point) (a b : Int)
    (p : Point) (rest : List Point)
    (hw : windowFilter dataArr a b = p :: rest) :
    computeMetrics price cons dataArr a b =
      ⟨formatAvailability (metricsLoop p rest).1,
        ((metricsLoop p rest).2 : Rat) / 3600000 * cons,
        ((metricsLoop p rest).2 : Rat) / 3600000 * cons * price,
        ((metricsLoop p rest).2 : Rat) / 3600000 * cons * price * 30,
        some (((p :: rest).getLast (List.cons_ne_nil p rest)).value)⟩ := by
  have hne : dataArr ≠ [] := by
    intro h
    subst h
    simp [windowFilter] at hw
  rw [computeMetrics, if_neg hne]
  simp only [hw]

/-- Zero milliseconds format as the zero availability string. -/
theorem formatAvailability_zero : formatAvailability 0 = ("00:00 h") := by
  simp only [formatAvailability]
  norm_num
  rw [show Rat.floor 0 = 0 from by decide]
  norm_num
  decide

/-- One hour of milliseconds formats as one hour. -/
theorem formatAvailability_hour : formatAvailability 3600000 = ("01:00 h") := by
  simp only [formatAvailability]
  rw [show ((3600000 : Int) : Rat) / 3600000 = 1 from by norm_num]
  rw [show Rat.floor 1 = 1 from by decide]
  norm_num
  decide

/-- Evaluation of the specification's concrete two-point example. -/
theorem computeMetrics_example :
    computeMetrics (53/10) (63/10) [⟨0, 60⟩, ⟨3600000, 70⟩] 0 3600000 =
      ⟨("01:00 h"), 63/10, 3339/100, 10017/10, some 70⟩ := by
  have hw : windowFilter [⟨0, 60⟩, ⟨3600000, 70⟩] 0 3600000 =
      [⟨0, 60⟩, ⟨3600000, 70⟩] := by decide
  rw [computeMetrics_cons (53/10) (63/10) _ 0 3600000 ⟨0, 60⟩ [⟨3600000, 70⟩] hw]
  rw [show metricsLoop ⟨0, 60⟩ [⟨3600000, 70⟩] = (3600000, 3600000) from by decide]
  rw [formatAvailability_hour]
  simp only [Metrics.mk.injEq, List.getLast]
  norm_num

/-- C2: the window filter preserves order (a sublist of the series); the
fused loop adds each inter-sample interval to the availability accumulator
exactly when both endpoint values exceed 50 and to the savings accumulator
exactly when both exceed 40 (the pairwise sums over consecutive pairs); a
one-point filtered sequence contributes zero to both accumulators. -/
theorem c2_interval_accumulation (price cons : Rat) (dataArr : List Point)
    (a b : Int) :
    List.Sublist (windowFilter dataArr a b) dataArr ∧
    (∀ p rest, windowFilter dataArr a b = p :: rest →
      metricsLoop p rest = (pairSum 50 (p :: rest), pairSum 40 (p :: rest))) ∧
    (∀ p, windowFilter dataArr a b = [p] →
      computeMetrics price cons dataArr a b = ⟨("00:00 h"), 0, 0, 0, some p.value⟩) := by
  refine ⟨List.filter_sublist _, fun p rest _ => metricsLoop_eq_pairSum p rest, ?_⟩
  intro p hw
  rw [computeMetrics_cons price cons _ a b p [] hw]
  rw [show metricsLoop p [] = (0, 0) from rfl]
  rw [formatAvailability_zero]
  simp only [Metrics.mk.injEq]
  norm_num

/-- C2 witness: concrete two-point and one-point instances. -/
theorem c2_witness :
    List.Sublist (windowFilter [⟨0, 60⟩, ⟨3600000, 70⟩] 0 3600000) [⟨0, 60⟩, ⟨3600000, 70⟩] ∧
    metricsLoop ⟨0, 60⟩ [⟨3600000, 70⟩] =
      (pairSum 50 [⟨0, 60⟩, ⟨3600000, 70⟩], pairSum 40 [⟨0, 60⟩, ⟨3600000, 70⟩]) ∧
    computeMetrics (53/10) (63/10) [⟨5, 60⟩] 0 10 = ⟨("00:00 h"), 0, 0, 0, some 60⟩ := by
  refine ⟨(c2_interval_accumulation (53/10) (63/10) [⟨0, 60⟩, ⟨3600000, 70⟩] 0 3600000).1,
    (c2_interval_accumulation (53/10) (63/10) [⟨0, 60⟩, ⟨3600000, 70⟩] 0 3600000).2.1
      ⟨0, 60⟩ [⟨3600000, 70⟩] (by decide),
    (c2_interval_accumulation (53/10) (63/10) [⟨5, 60⟩] 0 10).2.2 ⟨5, 60⟩ (by decide)⟩

/-- C3: for a t-sorted series and nonnegative rate constants, savedLiters is
the savings-eligible duration in hours times the consumption constant,
savedCurrency is savedLiters times the price constant, the monthly projection
is savedCurrency times exactly 30 for every window, and none of the three is
negative. -/
theorem c3_savings (price cons : Rat) (dataArr : List Point) (a b : Int)
    (hp : 0 ≤ price) (hc : 0 ≤ cons)
    (hs : dataArr.Pairwise (fun x y : Point => x.t ≤ y.t)) :
    (computeMetrics price cons dataArr a b).economiaLitros =
      ((pairSum 40 (windowFilter dataArr a b) : Rat) / 3600000) * cons ∧
    (computeMetrics price cons dataArr a b).economiaRS =
      (computeMetrics price cons dataArr a b).economiaLitros * price ∧
    (computeMetrics price cons dataArr a b).economiaMes =
      (computeMetrics price cons dataArr a b).economiaRS * 30 ∧
    0 ≤ (computeMetrics price cons dataArr a b).economiaLitros ∧
    0 ≤ (computeMetrics price cons dataArr a b).economiaRS ∧
    0 ≤ (computeMetrics price cons dataArr a b).economiaMes := by
  rcases hw : windowFilter dataArr a b with _ | ⟨p, rest⟩
  · rw [computeMetrics_empty_window price cons dataArr a b hw]
    simp [emptyMetrics, pairSum]
  · rw [computeMetrics_cons price cons dataArr a b p rest hw]
    have hsf : (p :: rest).Pairwise (fun x y : Point => x.t ≤ y.t) := by
      rw [← hw]
      exact List.Pairwise.sublist (List.filter_sublist dataArr) hs
    have hps : 0 ≤ pairSum 40 (p :: rest) := pairSum_nonneg 40 (p :: rest) hsf
    have hlo : metricsLoop p rest = (pairSum 50 (p :: rest), pairSum 40 (p :: rest)) :=
      metricsLoop_eq_pairSum p rest
    rw [hlo]
    have hlitros : (0 : Rat) ≤ ((pairSum 40 (p :: rest) : Rat) / 3600000) * cons := by
      apply mul_nonneg _ hc
      apply div_nonneg _ (by norm_num)
      exact_mod_cast hps
    refine ⟨rfl, rfl, rfl, hlitros, mul_nonneg hlitros hp, by positivity⟩

/-- C3 witness: the specification's concrete example values. -/
theorem c3_witness :
    (computeMetrics (53/10) (63/10) [⟨0, 60⟩, ⟨3600000, 70⟩] 0 3600000).economiaLitros
      = 63/10 ∧
    (computeMetrics (53/10) (63/10) [⟨0, 60⟩, ⟨3600000, 70⟩] 0 3600000).economiaRS
      = 3339/100 ∧
    (computeMetrics (53/10) (63/10) [⟨0, 60⟩, ⟨3600000, 70⟩] 0 3600000).economiaMes
      = 10017/10 ∧
    0 ≤ (computeMetrics (53/10) (63/10) [⟨0, 60⟩, ⟨3600000, 70⟩] 0 3600000).economiaMes := by
  have h := c3_savings (53/10) (63/10) [⟨0, 60⟩, ⟨3600000, 70⟩] 0 3600000
    (by norm_num) (by norm_num) (by decide)
  rw [computeMetrics_example]
  exact ⟨rfl, rfl, rfl, by rw [← computeMetrics_example]; exact h.2.2.2.2.2⟩

/-- In a t-sorted list every element's timestamp is at most the last one's. -/
theorem pairwise_le_getLast {l : List Point} (h : l ≠ [])
    (hs : l.Pairwise (fun x y : Point => x.t ≤ y.t)) :
    ∀ q ∈ l, q.t ≤ (l.getLast h).t := by
  induction l with
  | nil => exact absurd rfl h
  | cons p rest ih =>
    intro q hq
    cases rest with
    | nil =>
      simp at hq
      subst hq
      simp [List.getLast]
    | cons p2 r2 =>
      rw [List.getLast_cons (List.cons_ne_nil p2 r2)]
      rcases List.mem_cons.mp hq with hq | hq
      · subst hq
        exact le_trans
          (List.rel_of_pairwise_cons hs (List.getLast_mem (List.cons_ne_nil p2 r2)))
          (le_refl _)
      · exact ih (List.cons_ne_nil p2 r2) (List.Pairwise.of_cons hs) q hq

/-- C4 (amended): the window filter is inclusive at both ends; an empty
series or empty window yields availability "00:00 h", zero savings and a null
last value; otherwise the last value is the last filtered point's value,
which under the sortedness invariant is the last in-window point by
timestamp. -/
theorem c4_window_and_empty (price cons : Rat) (dataArr : List Point) (a b : Int) :
    (∀ p ∈ dataArr, a ≤ p.t → p.t ≤ b → p ∈ windowFilter dataArr a b) ∧
    (∀ p ∈ windowFilter dataArr a b, p ∈ dataArr ∧ a ≤ p.t ∧ p.t ≤ b) ∧
    (windowFilter dataArr a b = [] →
      computeMetrics price cons dataArr a b = ⟨("00:00 h"), 0, 0, 0, none⟩) ∧
    (∀ p rest, windowFilter dataArr a b = p :: rest →
      (computeMetrics price cons dataArr a b).lastTemperature =
        some (((p :: rest).getLast (List.cons_ne_nil p rest)).value) ∧
      (dataArr.Pairwise (fun x y : Point => x.t ≤ y.t) →
        ∀ q ∈ windowFilter dataArr a b,
          q.t ≤ ((p :: rest).getLast (List.cons_ne_nil p rest)).t)) := by
  refine ⟨?_, ?_, ?_, ?_⟩
  · intro p hp h1 h2
    simp [windowFilter, List.mem_filter, hp, h1, h2]
  · intro p hp
    have := List.mem_filter.mp hp
    simp at this
    exact ⟨this.1, this.2.1, this.2.2⟩
  · intro hw
    rw [computeMetrics_empty_window price cons dataArr a b hw]
    rfl
  · intro p rest hw
    constructor
    · rw [computeMetrics_cons price cons dataArr a b p rest hw]
    · intro hs q hq
      rw [hw] at hq
      have hsf : (p :: rest).Pairwise (fun x y : Point => x.t ≤ y.t) := by
        rw [← hw]
        exact List.Pairwise.sublist (List.filter_sublist dataArr) hs
      exact pairwise_le_getLast (List.cons_ne_nil p rest) hsf q hq

/-- C4 counterexample: the zero-window availability string of the code is
"00:00 h", not the claimed "00:00". -/
theorem c4_counterexample :
    (computeMetrics (53/10) (63/10) ([] : List Point) 0 0).availability ≠ ("00:00") := by
  decide

/-- C4 witness: a boundary point at start = end = 5 is included, and an
empty window yields the zero result. -/
theorem c4_witness :
    (computeMetrics (53/10) (63/10) [⟨5, 60⟩] 5 5).lastTemperature = some 60 ∧
    computeMetrics (53/10) (63/10) [⟨7, 60⟩] 8 9 = ⟨("00:00 h"), 0, 0, 0, none⟩ :=
  ⟨((c4_window_and_empty (53/10) (63/10) [⟨5, 60⟩] 5 5).2.2.2 ⟨5, 60⟩ [] (by decide)).1,
    (c4_window_and_empty (53/10) (63/10) [⟨7, 60⟩] 8 9).2.2.1 (by decide)⟩

/-- Membership characterization of the heating-motor list. -/
theorem mem_heatingMotors (hd : Nat → Bool) (md : Nat → List Point) (id : Nat) :
    id ∈ heatingMotors hd md ↔
      1 ≤ id ∧ id ≤ 23 ∧ hd id = true ∧ md id ≠ [] := by
  simp only [heatingMotors, List.mem_filter, List.mem_range', Bool.and_eq_true,
    Bool.not_eq_true', List.isEmpty_eq_false, ne_eq]
  constructor
  · rintro ⟨⟨i, hi, rfl⟩, hflag, hdata⟩
    exact ⟨by omega, by omega, hflag, hdata⟩
  · rintro ⟨h1, h2, hflag, hdata⟩
    exact ⟨⟨id - 1, by omega, by omega⟩, hflag, hdata⟩

/-- C5 (amended): the heating list contains exactly the machine ids 1..23
that are flagged and have at least one sample anywhere, independent of any
window. -/
theorem c5_heating_list (hd : Nat → Bool) (md : Nat → List Point) (id : Nat) :
    id ∈ heatingMotors hd md ↔
      1 ≤ id ∧ id ≤ 23 ∧ hd id = true ∧ md id ≠ [] :=
  mem_heatingMotors hd md id

/-- Heating flags for the C5 counterexample: only machine 24 is flagged. -/
def hdC5 : Nat → Bool := fun i => i = 24

/-- Series map for the C5 counterexample: only machine 24 has data. -/
def mdC5 : Nat → List Point := fun i => if i = 24 then [⟨0, 60⟩] else []

/-- C5 counterexample: machine 24 is flagged and has a sample, yet the code's
hard-coded 1..23 loop excludes it from the heating list. -/
theorem c5_counterexample :
    hdC5 24 = true ∧ mdC5 24 ≠ [] ∧ 24 ∉ heatingMotors hdC5 mdC5 := by
  decide

/-- Heating flags for the C5 witness: every machine is flagged. -/
def hdW : Nat → Bool := fun _ => true

/-- Series map for the C5 witness: every machine has one sample. -/
def mdW : Nat → List Point := fun _ => [⟨0, 60⟩]

/-- C5 witness: machine 7, flagged and with data, is listed. -/
theorem c5_witness : 7 ∈ heatingMotors hdW mdW :=
  (c5_heating_list hdW mdW 7).mpr (by decide)

/-- A sum over `Finset.range` equals the list sum over `List.range`. -/
theorem sum_range_list (n : Nat) (f : Nat → Rat) :
    ∑ i ∈ Finset.range n, f i = ((List.range n).map f).sum := by
  induction n with
  | zero => simp
  | succ n ih => rw [Finset.sum_range_succ, List.range_succ]; simp [ih]

/-- A sum over `Finset.Icc 1 23` equals the list sum over `List.range' 1 23`. -/
theorem sum_icc_list (f : Nat → Rat) :
    ∑ id ∈ Finset.Icc 1 23, f id = ((List.range' 1 23).map f).sum := by
  have h24 : (23 : Nat).succ = 24 := rfl
  rw [← Nat.Ico_succ_right, h24, Finset.sum_Ico_eq_sum_range]
  rw [show (24 - 1 : Nat) = 23 from rfl]
  rw [sum_range_list 23 (fun k => f (1 + k))]
  rw [List.range'_eq_map_range]
  rw [List.map_map]
  rfl

/-- Filtering then mapping then summing a list equals summing the guarded
terms. -/
theorem filter_map_sum (p : Nat → Bool) (f : Nat → Rat) (l : List Nat) :
    ((l.filter p).map f).sum = (l.map (fun x => if p x then f x else 0)).sum := by
  induction l with
  | nil => simp
  | cons x xs ih =>
    by_cases h : p x <;> simp [List.filter_cons, h, ih]

/-- List-sum versus set-sum over the filtered id range. -/
theorem list_sum_eq_finset (p : Nat → Bool) (f : Nat → Rat) :
    (((List.range' 1 23).filter p).map f).sum =
      ∑ id ∈ (Finset.Icc 1 23).filter (fun id => p id = true), f id := by
  rw [filter_map_sum, Finset.sum_filter, sum_icc_list]

/-- C6 (amended): the liters/currency totals sum the per-machine metrics over
exactly the heating-listed machines (flag true and data present, ids 1..23),
while the monthly-projection total sums over every machine id 1..23 with data
irrespective of the heating flag; a machine with data but flag false belongs
to the monthly index set and not to the heating list. -/
theorem c6_aggregation (price cons : Rat) (hd : Nat → Bool)
    (md : Nat → List Point) (a b : Int) :
    totalLitrosHeating price cons hd md a b =
      ∑ id ∈ (Finset.Icc 1 23).filter (fun id => hd id = true ∧ md id ≠ []),
        (computeMetrics price cons (md id) a b).economiaLitros ∧
    totalRSHeating price cons hd md a b =
      ∑ id ∈ (Finset.Icc 1 23).filter (fun id => hd id = true ∧ md id ≠ []),
        (computeMetrics price cons (md id) a b).economiaRS ∧
    totalMonthlyProjection price cons md a b =
      ∑ id ∈ (Finset.Icc 1 23).filter (fun id => md id ≠ []),
        (computeMetrics price cons (md id) a b).economiaMes ∧
    (∀ id, 1 ≤ id → id ≤ 23 → md id ≠ [] → hd id = false →
      id ∈ (Finset.Icc 1 23).filter (fun id => md id ≠ []) ∧
        id ∉ heatingMotors hd md) := by
  have hcong : (Finset.Icc 1 23).filter
        (fun id => (hd id && !(md id).isEmpty) = true) =
      (Finset.Icc 1 23).filter (fun id => hd id = true ∧ md id ≠ []) := by
    apply Finset.filter_congr
    intro x _
    simp [Bool.and_eq_true, List.isEmpty_eq_false]
  have hcong2 : (Finset.Icc 1 23).filter (fun id => (!(md id).isEmpty) = true) =
      (Finset.Icc 1 23).filter (fun id => md id ≠ []) := by
    apply Finset.filter_congr
    intro x _
    simp [List.isEmpty_eq_false]
  refine ⟨?_, ?_, ?_, ?_⟩
  · rw [totalLitrosHeating, heatingMotors, list_sum_eq_finset, hcong]
  · rw [totalRSHeating, heatingMotors, list_sum_eq_finset, hcong]
  · rw [totalMonthlyProjection, list_sum_eq_finset, hcong2]
  · intro id h1 h2 hdata hflag
    refine ⟨Finset.mem_filter.mpr ⟨Finset.mem_Icc.mpr ⟨h1, h2⟩, hdata⟩, ?_⟩
    intro hmem
    have := (mem_heatingMotors hd md id).mp hmem
    rw [this.2.2.1] at hflag
    simp at hflag

/-- Series map for the C6 counterexample: only machine 30 has data. -/
def mdC6 : Nat → List Point := fun i => if i = 30 then [⟨0, 60⟩, ⟨3600000, 70⟩] else []

/-- C6 counterexample: machine 30 has data and a nonzero monthly projection,
yet the 1..23 loop leaves the total at zero, so the total does not sum over
every machine with data. -/
theorem c6_counterexample :
    mdC6 30 ≠ [] ∧
    (computeMetrics (53/10) (63/10) (mdC6 30) 0 3600000).economiaMes = 10017/10 ∧
    totalMonthlyProjection (53/10) (63/10) mdC6 0 3600000 = 0 := by
  refine ⟨by decide, ?_, ?_⟩
  · rw [show mdC6 30 = [⟨0, 60⟩, ⟨3600000, 70⟩] from rfl, computeMetrics_example]
  · rw [totalMonthlyProjection,
      show (List.range' 1 23).filter (fun id => !(mdC6 id).isEmpty) = [] from by decide]
    rfl

/-- Series map for the C6 witness: machine 7 has the example data. -/
def mdW6 : Nat → List Point := fun i => if i = 7 then [⟨0, 60⟩, ⟨3600000, 70⟩] else []

/-- C6 witness: the monthly total over the 1..23 identifiers with data agrees
with the set-indexed sum and evaluates to machine 7's projection even though
no machine is flagged. -/
theorem c6_witness :
    totalMonthlyProjection (53/10) (63/10) mdW6 0 3600000 =
      ∑ id ∈ (Finset.Icc 1 23).filter (fun id => mdW6 id ≠ []),
        (computeMetrics (53/10) (63/10) (mdW6 id) 0 3600000).economiaMes ∧
    totalMonthlyProjection (53/10) (63/10) mdW6 0 3600000 = 10017/10 ∧
    totalLitrosHeating (53/10) (63/10) (fun _ => false) mdW6 0 3600000 = 0 := by
  refine ⟨(c6_aggregation (53/10) (63/10) (fun _ => false) mdW6 0 3600000).2.2.1, ?_, ?_⟩
  · rw [totalMonthlyProjection,
      show (List.range' 1 23).filter (fun id => !(mdW6 id).isEmpty) = [7] from by decide]
    rw [List.map_cons, List.map_nil, List.sum_cons, List.sum_nil,
      show mdW6 7 = [⟨0, 60⟩, ⟨3600000, 70⟩] from rfl, computeMetrics_example]
    norm_num
  · rw [totalLitrosHeating,
      show heatingMotors (fun _ => false) mdW6 = [] from by decide]
    rfl

/-- The point order is transitive. -/
theorem ptLE_trans : ∀ a b c : Point, ptLE a b → ptLE b c → ptLE a c := by
  intro a b c h1 h2
  simp only [ptLE, decide_eq_true_eq] at *
  omega

/-- The point order is total. -/
theorem ptLE_total : ∀ a b : Point, ptLE a b || ptLE b a := by
  intro a b
  simp only [ptLE, Bool.or_eq_true, decide_eq_true_eq]
  omega

/-- C8: every built series is sorted non-decreasingly by timestamp; the sort
is stable in the sense that for each timestamp the subsequence of points
carrying it equals the insertion-order subsequence; and the window filter
applied afterwards by the metrics engine preserves sortedness. -/
theorem c8_sorted_stable (jsDate : String → Option Int)
    (tables : List (List Row)) (id : Nat) :
    (motorDataOf jsDate tables id).Pairwise (fun p q : Point => p.t ≤ q.t) ∧
    (∀ k : Int, (motorDataOf jsDate tables id).filter (fun p => p.t = k) =
      (rawSeries jsDate tables id).filter (fun p => p.t = k)) ∧
    (∀ a b : Int, (windowFilter (motorDataOf jsDate tables id) a b).Pairwise
      (fun p q : Point => p.t ≤ q.t)) := by
  have hsorted : (motorDataOf jsDate tables id).Pairwise
      (fun p q : Point => ptLE p q = true) :=
    List.sorted_mergeSort ptLE_trans ptLE_total (rawSeries jsDate tables id)
  have hsorted' : (motorDataOf jsDate tables id).Pairwise
      (fun p q : Point => p.t ≤ q.t) :=
    hsorted.imp (fun h => by simpa [ptLE] using h)
  refine ⟨hsorted', ?_, ?_⟩
  · intro k
    set raw := rawSeries jsDate tables id with hraw
    set pk : Point → Bool := fun p => p.t = k with hpk
    have hmemk : ∀ x ∈ raw.filter pk, x.t = k := by
      intro x hx
      have := (List.mem_filter.mp hx).2
      simpa [hpk] using this
    have hfil_pair : (raw.filter pk).Pairwise (fun p q : Point => ptLE p q = true) := by
      apply List.pairwise_of_forall_mem_list
      intro x hx y hy
      simp only [ptLE, decide_eq_true_eq]
      rw [hmemk x hx, hmemk y hy]
    have hsub : List.Sublist (raw.filter pk) (raw.mergeSort ptLE) :=
      List.sublist_mergeSort ptLE_trans ptLE_total hfil_pair (List.filter_sublist raw)
    have hsub2 : List.Sublist ((raw.filter pk).filter pk) ((raw.mergeSort ptLE).filter pk) :=
      List.Sublist.filter pk hsub
    rw [List.filter_eq_self.mpr (fun x hx => (List.mem_filter.mp hx).2)] at hsub2
    have hperm : ((raw.mergeSort ptLE).filter pk).Perm (raw.filter pk) :=
      (List.mergeSort_perm raw ptLE).filter pk
    exact ((hsub2.eq_of_length hperm.length_eq.symm).symm)
  · intro a b
    exact List.Pairwise.sublist (List.filter_sublist _) hsorted'

/-- Concrete one-row table for the C8 witness. -/
def tblW : List (List Row) :=
  [[[(("Date"), ("15/03/24")), (("Time"), ("10:00")), (("SCA07TE402PV"), ("55,5"))]]]

/-- C8 witness: the pipeline on a concrete table yields machine 7's sorted
series with the single parsed sample at the oracle instant. -/
theorem c8_witness :
    (motorDataOf jsOracle tblW 7).Pairwise (fun p q : Point => p.t ≤ q.t) ∧
    (motorDataOf jsOracle tblW 7).map Point.t = [0] := by
  refine ⟨(c8_sorted_stable jsOracle tblW 7).1, ?_⟩
  have hlen : (rawSeries jsOracle tblW 7).length = 1 := by decide
  have hmap : (rawSeries jsOracle tblW 7).map Point.t = [0] := by decide
  rcases e : rawSeries jsOracle tblW 7 with _ | ⟨x, _ | ⟨y, r⟩⟩
  · rw [e] at hlen
    simp at hlen
  · rw [motorDataOf, e, List.mergeSort_singleton]
    rw [e] at hmap
    exact hmap
  · rw [e] at hlen
    simp at hlen

/-- C9: a column whose name contains, case-insensitively and anywhere, one of
the words Date, Time, Data or Hora never contributes a sample point, whatever
the timestamp and cell text — even when the name also carries a machine
marker and the cell parses as a number. -/
theorem c9_datetime_columns (ts : Int) (col cell : String)
    (h : dateTimeColTest col = true) :
    colContribution ts col cell = none := by
  simp [colContribution, h]

/-- C9 witness: the column name `SCA07Data` matches the machine marker (id 7)
and its cell parses as a number, yet the embedded `Data` word drops it. -/
theorem c9_witness :
    scaMatch ("SCA07Data") = some 7 ∧
    jsParseFloat (replaceFirstComma ("55,5")) ≠ none ∧
    colContribution 0 ("SCA07Data") ("55,5") = none :=
  ⟨by decide, by decide, c9_datetime_columns 0 ("SCA07Data") ("55,5") (by decide)⟩
